import Mathlib

/-!
# Verification of the daily-challenge core (dimariabovol/daily-challenge-app)

Shallow embedding of the algorithmic core of the repository:

* `src/lib/db/challenge-generator.ts` — deterministic index selection
  (`getDateBasedIndex`), daily challenge generation (`generateDailyChallenge`);
* `src/lib/db/challenges.ts` — store operations (`getUserChallengeByDate`,
  `getCategories`, `getChallengeTemplates`, `createUserChallenge`);
* `src/lib/db/statistics.ts` — `calculateCurrentStreak`,
  `calculateLongestStreak`, `calculateCompletionRate`.

Modelling conventions:

* JavaScript strings are modelled as lists of character codes (`List Nat`);
  `String` values are converted with `strCodes` (code points, which agree with
  UTF-16 code units on the BMP — all ids and date keys in this app are ASCII).
* JavaScript 32-bit coercions (`<<`, `& `) are modelled on `Int` with explicit
  reduction modulo `2^32` into the signed range (`toInt32`).
* The JavaScript `%` operator on numbers is `jsRem`: truncating remainder
  (sign of the dividend); division by zero yields `NaN`, modelled as `none`.
* Calendar dates inside the statistics functions are modelled as integer day
  numbers: the source normalises every parsed date to midnight
  (`setHours(0,0,0,0)`) and steps by exactly one calendar day
  (`setDate(d.getDate() - 1)`, `getTime() - 86400000`), so a date is one
  integer and "previous day" is subtraction by 1 (timezone taken as UTC).
* The SQLite store is a `Store` value; queries are list operations and the
  `UNIQUE (user_id, date)` constraint of `user_challenges` (schema.ts) is an
  explicit check in `createUserChallenge`.
-/

namespace DailyChallengeApp

/-! ## Deterministic selector: getDateBasedIndex (challenge-generator.ts 100-111) -/

/-- JavaScript ToInt32: reduce an integer modulo `2^32` into the signed
32-bit range `[-2^31, 2^31)`.  This is what `hash & hash` (and the result of
`hash << 5`) performs in the source. -/
def toInt32 (n : Int) : Int :=
  let m := n % 4294967296
  if m < 2147483648 then m else m - 4294967296

/-- One iteration of the hash loop of `getDateBasedIndex`:
`hash = ((hash << 5) - hash) + char; hash = hash & hash;`.
`hash << 5` is the 32-bit coercion of `hash * 32`; the subtraction and the
addition of the character code are exact (the magnitudes stay far below
`2^53`); `hash & hash` coerces the result back to a signed 32-bit integer. -/
def hashStep (hash : Int) (c : Nat) : Int :=
  toInt32 (toInt32 (hash * 32) - hash + c)

/-- The hash accumulated by `getDateBasedIndex` over the character codes of
its argument, starting from `hash = 0`. -/
def hashOf (codes : List Nat) : Int :=
  codes.foldl hashStep 0

/-- JavaScript remainder `a % b` on numbers: truncating remainder (the result
has the sign of the dividend); `b = 0` yields `NaN`, modelled as `none`. -/
def jsRem (a b : Int) : Option Int :=
  if b = 0 then none else some (a.tmod b)

/-- `getDateBasedIndex(dateStr, max)` from challenge-generator.ts:
the hash loop followed by `Math.abs(hash) % max`.  The function performs no
validation of `max`. -/
def getDateBasedIndex (codes : List Nat) (max : Int) : Option Int :=
  jsRem ((hashOf codes).natAbs : Int) max

/-- The in-range index `Math.abs(hash) % max` actually used at the two call
sites of `getDateBasedIndex` inside `generateDailyChallenge`, where `max` is
the (positive) length of a list. -/
def dateIndex (codes : List Nat) (max : Nat) : Nat :=
  (hashOf codes).natAbs % max

/-- Character codes of a string (code points; equal to UTF-16 code units for
the ASCII ids and `YYYY-MM-DD` date keys this application uses). -/
def strCodes (s : String) : List Nat :=
  s.data.map Char.toNat

/-! ### Specification-side selector (spec.md §4.1)

`hash = (hash*31 + code) mod 2^32` (signed 32-bit wraparound),
`result = abs(hash) mod modulus`. -/

/-- Modelled from the spec: one step of the reference recurrence
`hash = (hash*31 + code) mod 2^32`, on the unsigned representative. -/
def specHashStep (h c : Nat) : Nat :=
  (h * 31 + c) % 4294967296

/-- Modelled from the spec: the reference rolling hash over the key's
character codes. -/
def specHash (codes : List Nat) : Nat :=
  codes.foldl specHashStep 0

/-- Reinterpret an unsigned 32-bit value (`< 2^32`) as a signed 32-bit
integer (the spec's "signed 32-bit wraparound"). -/
def toSigned (n : Nat) : Int :=
  if n < 2147483648 then (n : Int) else (n : Int) - 4294967296

/-- Modelled from the spec: `select(key, modulus) = abs(hash) mod modulus`
with `hash` the signed 32-bit rolling hash. -/
def selectFromSpec (codes : List Nat) (max : Int) : Option Int :=
  jsRem ((toSigned (specHash codes)).natAbs : Int) max

/-! ## Statistics engine (statistics.ts)

Assignments as seen by the statistics functions: a calendar date (integer day
number, see the header) and a completion flag. -/

/-- One row of the user's challenge history as consumed by the statistics
functions: its calendar date (day number) and completion flag. -/
structure DayEntry where
  date : Int
  completed : Bool
deriving Repr, DecidableEq

/-- The backward walk shared by both branches of `calculateCurrentStreak`
(statistics.ts 45-69 and 78-103): `expected` is `currentDate`, `streak` the
accumulator.  Case order mirrors the source: an assignment on the expected
day that is completed increments and steps one day back; one that exists but
is not completed breaks; a date earlier than expected (a gap) breaks; a date
greater than expected is skipped. -/
def streakWalk (expected : Int) (streak : Nat) : List DayEntry → Nat
  | [] => streak
  | e :: rest =>
    if e.date = expected then
      if e.completed then streakWalk (expected - 1) (streak + 1) rest
      else streak
    else if e.date < expected then streak
    else streakWalk expected streak rest

/-- `calculateCurrentStreak` (statistics.ts 20-107) over the history rows
(most recent first, the result of `getUserChallengeHistory(userId, 100, 0)`)
and the caller's current date `today`.  The first branch (most recent row not
from today but completed) walks over the whole list anchored at that row's
date; the second (today's row completed) starts the streak at 1 and walks the
tail anchored at yesterday; otherwise the streak is 0. -/
def calculateCurrentStreak (today : Int) (challenges : List DayEntry) : Nat :=
  match challenges with
  | [] => 0
  | mostRecent :: rest =>
    if mostRecent.date ≠ today ∧ mostRecent.completed then
      streakWalk mostRecent.date 0 (mostRecent :: rest)
    else if mostRecent.date = today ∧ mostRecent.completed then
      streakWalk (today - 1) 1 rest
    else 0

/-- Modelled from the spec (§4.3 currentStreak): the backward walk counting
consecutive completed days, expecting day `expected` next. -/
def specRun (expected : Int) : List DayEntry → Nat
  | [] => 0
  | e :: rest =>
    if e.date = expected ∧ e.completed then 1 + specRun (expected - 1) rest
    else 0

/-- Modelled from the spec (§4.3 currentStreak): 0 on empty history; if the
most recent row is completed, 1 plus the backward walk anchored one day
before it (at `today - 1` when the row is from today); 0 when the most
recent row is not completed. -/
def currentStreakFromSpec (today : Int) : List DayEntry → Nat
  | [] => 0
  | m :: rest =>
    if m.completed then
      if m.date = today then 1 + specRun (today - 1) rest
      else 1 + specRun (m.date - 1) rest
    else 0

/-- One iteration of the `calculateLongestStreak` loop (statistics.ts
131-160) on the state `(currentStreak, longestStreak, previousDate)`. -/
def longestStep (st : Nat × Nat × Option Int) (e : DayEntry) : Nat × Nat × Option Int :=
  match st with
  | (currentStreak, longestStreak, previousDate) =>
    if e.completed then
      let cur :=
        if previousDate = none ∨ previousDate = some (e.date - 1)
        then currentStreak + 1 else 1
      let best := if cur > longestStreak then cur else longestStreak
      (cur, best, some e.date)
    else (0, longestStreak, none)

/-- `calculateLongestStreak` (statistics.ts 114-163) over the user's
assignments in ascending date order: fold `longestStep` from
`(0, 0, null)` and return the recorded longest streak.  (The source's early
return on an empty list equals the fold's initial value.) -/
def calculateLongestStreak (challenges : List DayEntry) : Nat :=
  (challenges.foldl longestStep (0, 0, none)).2.1

/-- Modelled from the spec (§4.3 longestStreak): the reference fold with
state `currentRun`, `best`, `previousCompletedDate`. -/
def specLongestAux (currentRun best : Nat) (previousCompletedDate : Option Int) :
    List DayEntry → Nat
  | [] => best
  | e :: rest =>
    if e.completed then
      let run :=
        if previousCompletedDate = none ∨ previousCompletedDate = some (e.date - 1)
        then currentRun + 1 else 1
      specLongestAux run (max best run) (some e.date) rest
    else specLongestAux 0 best none rest

/-- Modelled from the spec (§4.3 longestStreak): run the reference fold from
the initial state. -/
def longestStreakFromSpec (challenges : List DayEntry) : Nat :=
  specLongestAux 0 0 none challenges

/-- Math.round, which rounds half up (toward `+∞`); the floating-point
division of the source is idealised as exact rational arithmetic. -/
def jsRound (x : ℚ) : Int := ⌊x + 1 / 2⌋

/-- `calculateCompletionRate` (statistics.ts 170-180) on the two counts it
queries: 0 when there are no challenges, otherwise
`Math.round((completed / total) * 100)`.  `getUserStats` (187-203) computes
its `completionRate` field by the same expression. -/
def calculateCompletionRate (totalChallenges completedChallenges : Nat) : Nat :=
  if totalChallenges = 0 then 0
  else (jsRound ((completedChallenges : ℚ) / (totalChallenges : ℚ) * 100)).toNat

/-- Modelled from the spec (§4.3): `round(100 * completed / total)` rounding
half up, as a closed natural-number formula
`⌊(100c/t) + 1/2⌋ = (200c + t) / (2t)`, and 0 when `total = 0`. -/
def completionRateFromSpec (totalChallenges completedChallenges : Nat) : Nat :=
  if totalChallenges = 0 then 0
  else (200 * completedChallenges + totalChallenges) / (2 * totalChallenges)

/-! ## Store model and generateDailyChallenge (challenge-generator.ts, challenges.ts)

The SQLite database as a value.  `categories` is held in the order returned
by `getCategories` (`ORDER BY name ASC` over the static seeded catalog) and
`challenge_templates` in the order returned by the unfiltered
`getChallengeTemplates` (`ORDER BY created_at DESC`); both are static
reference data.  `user_challenges` holds the assignment rows;
`nextId` models the fresh ids produced by `generateId()`. -/

/-- Category row (challenges.ts `Category`). -/
structure Category where
  id : String
  name : String
  color : String
  icon : String
deriving Repr, DecidableEq, Inhabited

/-- Challenge template row (challenges.ts `ChallengeTemplate`). -/
structure ChallengeTemplate where
  id : String
  title : String
  description : String
  category_id : String
deriving Repr, DecidableEq, Inhabited

/-- User challenge row (challenges.ts `UserChallenge`).  Ids produced by
`generateId()` are modelled as consecutive numbers. -/
structure UserChallenge where
  id : Nat
  user_id : String
  template_id : String
  date : String
  completed : Bool
deriving Repr, DecidableEq, Inhabited

/-- The database state. -/
structure Store where
  categories : List Category
  challenge_templates : List ChallengeTemplate
  user_challenges : List UserChallenge
  nextId : Nat
deriving Repr, DecidableEq

/-- `getCategories` (challenges.ts 61-67): the full category list in the
query's stable order. -/
def getCategories (s : Store) : List Category :=
  s.categories

/-- `getChallengeTemplates(categoryId)` (challenges.ts 87-102): templates of
one category, keeping the stable store order. -/
def getChallengeTemplates (s : Store) (categoryId : String) : List ChallengeTemplate :=
  s.challenge_templates.filter (fun t => t.category_id == categoryId)

/-- `getUserChallengeByDate` (challenges.ts 158-177): the user's row for one
date.  The SQL inner joins `challenge_templates` and `categories`, so a row
whose template or category is missing is not returned. -/
def getUserChallengeByDate (s : Store) (userId date : String) : Option UserChallenge :=
  s.user_challenges.find? (fun uc =>
    uc.user_id == userId && uc.date == date &&
      s.challenge_templates.any (fun t =>
        t.id == uc.template_id &&
          s.categories.any (fun c => c.id == t.category_id)))

/-- One row of the recent-challenges query of `generateDailyChallenge`
(challenge-generator.ts 21-31): `uc.id, uc.date, ct.category_id`. -/
structure RecentRow where
  id : Nat
  date : String
  category_id : String
deriving Repr, DecidableEq

/-- Bytewise (here: character-code-wise) list comparison, the order SQLite's
memcmp collation puts on `YYYY-MM-DD` text keys. -/
def charListLe : List Char → List Char → Bool
  | [], _ => true
  | _ :: _, [] => false
  | c :: cs, d :: ds =>
    if c.toNat < d.toNat then true
    else if d.toNat < c.toNat then false
    else charListLe cs ds

/-- SQLite text-order `a <= b` on two strings. -/
def strLe (a b : String) : Bool := charListLe a.data b.data

/-- Insert one row into a list sorted by date descending (stable insertion
sort step), modelling `ORDER BY uc.date DESC`. -/
def insertByDateDesc (r : RecentRow) : List RecentRow → List RecentRow
  | [] => [r]
  | x :: xs => if strLe r.date x.date then x :: insertByDateDesc r xs else r :: x :: xs

/-- Sort rows by date descending (insertion sort). -/
def sortByDateDesc (rows : List RecentRow) : List RecentRow :=
  rows.foldr insertByDateDesc []

/-- The recent-challenges query of `generateDailyChallenge`
(challenge-generator.ts 21-31): the user's rows inner-joined with their
templates, ordered by date descending, limited to 5. -/
def recentChallengesOf (s : Store) (userId : String) : List RecentRow :=
  (sortByDateDesc
    ((s.user_challenges.filter (fun uc => uc.user_id == userId)).filterMap
      (fun uc =>
        (s.challenge_templates.find? (fun t => t.id == uc.template_id)).map
          (fun t => ⟨uc.id, uc.date, t.category_id⟩)))).take 5

/-- First index `i < n` (scanning upward from 0) with `p i`, modelling the
`for`-loop-with-`break` of the anti-repetition scan. -/
def scanFirst (p : Nat → Bool) : Nat → Option Nat
  | 0 => none
  | k + 1 =>
    match scanFirst p k with
    | some i => some i
    | none => if p k then some k else none

/-- The category-selection step of `generateDailyChallenge`
(challenge-generator.ts 44-59): start at the deterministic `categoryIndex`;
if that category's id is among the recent ids and there are at least 3
recent rows, probe `(categoryIndex + i + 1) % categories.length` for
`i = 0, 1, ...` and take the first probe whose category is not recent;
otherwise (or if every probe is recent) keep `categoryIndex`. -/
def selectedCategoryIndex (categories : List Category) (recentCategoryIds : List String)
    (recentCount : Nat) (categoryIndex : Nat) : Nat :=
  if recentCategoryIds.contains (categories.getD categoryIndex default).id
      && decide (3 ≤ recentCount) then
    match scanFirst
        (fun i => !(recentCategoryIds.contains
          ((categories.getD ((categoryIndex + i + 1) % categories.length) default).id)))
        categories.length with
    | some i => (categoryIndex + i + 1) % categories.length
    | none => categoryIndex
  else categoryIndex

/-- `createUserChallenge` (challenges.ts 124-137): insert a new
`user_challenges` row.  The `UNIQUE (user_id, date)` constraint of the
schema (schema.ts 57) makes the insert fail when a row for the pair already
exists; better-sqlite3 surfaces this as a thrown error, modelled as
`Except.error`. -/
def createUserChallenge (s : Store) (userId templateId date : String) :
    Except String (UserChallenge × Store) :=
  if s.user_challenges.any (fun a => a.user_id == userId && a.date == date) then
    Except.error "UNIQUE constraint failed: user_challenges.user_id, user_challenges.date"
  else
    let uc : UserChallenge :=
      { id := s.nextId, user_id := userId, template_id := templateId
        date := date, completed := false }
    Except.ok (uc, { s with user_challenges := s.user_challenges ++ [uc]
                            nextId := s.nextId + 1 })

instance {ε α : Type _} [DecidableEq ε] [DecidableEq α] :
    DecidableEq (Except ε α) := fun x y =>
  match x, y with
  | Except.error a, Except.error b =>
    if h : a = b then isTrue (by rw [h])
    else isFalse (by intro hh; cases hh; exact h rfl)
  | Except.error _, Except.ok _ => isFalse (by intro hh; cases hh)
  | Except.ok _, Except.error _ => isFalse (by intro hh; cases hh)
  | Except.ok a, Except.ok b =>
    if h : a = b then isTrue (by rw [h])
    else isFalse (by intro hh; cases hh; exact h rfl)

/-- The recently used category ids `recentCategoryIds`
(challenge-generator.ts 40): the category ids of the recent window (the
source stores them in a `Set`, used only for membership tests). -/
def recentCategoryIdsOf (s : Store) (userId : String) : List String :=
  (recentChallengesOf s userId).map (fun r => r.category_id)

/-- The deterministic base category index `categoryIndex`
(challenge-generator.ts 44): `getDateBasedIndex(date, categories.length)`. -/
def baseCategoryIndex (s : Store) (date : String) : Nat :=
  dateIndex (strCodes date) (getCategories s).length

/-- The finally selected category index `selectedCategoryIndex`
(challenge-generator.ts 47-59), with the arguments `generateDailyChallenge`
feeds to the anti-repetition step. -/
def chosenCategoryIndex (s : Store) (userId date : String) : Nat :=
  selectedCategoryIndex (getCategories s) (recentCategoryIdsOf s userId)
    (recentChallengesOf s userId).length (baseCategoryIndex s date)

/-- The `selectedCategory` of `generateDailyChallenge`
(challenge-generator.ts 61): the category at the finally selected index. -/
def selectedCategoryOf (s : Store) (userId date : String) : Category :=
  (getCategories s).getD (chosenCategoryIndex s userId date) default

/-- The `templates` list of `generateDailyChallenge`
(challenge-generator.ts 64): the templates of the selected category. -/
def templatesOfChosen (s : Store) (userId date : String) : List ChallengeTemplate :=
  getChallengeTemplates s (selectedCategoryOf s userId date).id

/-- The `selectedTemplate` of `generateDailyChallenge`
(challenge-generator.ts 71-72): the template at the deterministic index
`getDateBasedIndex(date + selectedCategory.id, templates.length)`. -/
def chosenTemplate (s : Store) (userId date : String) : ChallengeTemplate :=
  (templatesOfChosen s userId date).getD
    (dateIndex (strCodes (date ++ (selectedCategoryOf s userId date).id))
      (templatesOfChosen s userId date).length)
    default

/-- The transaction body of `generateDailyChallenge`
(challenge-generator.ts 19-78), reading and writing the store `s`:
recent window, category list check, deterministic category index and
anti-repetition, template list check, deterministic template index, insert
(the intermediate `let`s of the source are the named definitions above).
Thrown errors are `Except.error`. -/
def generateBody (s : Store) (userId date : String) : Except String (Nat × Store) :=
  if (getCategories s).length = 0 then
    Except.error "No categories found in the database"
  else if (templatesOfChosen s userId date).length = 0 then
    Except.error ("No challenge templates found for category: "
      ++ (selectedCategoryOf s userId date).name)
  else
    match createUserChallenge s userId (chosenTemplate s userId date).id date with
    | Except.error e => Except.error e
    | Except.ok (uc, s1) => Except.ok (uc.id, s1)

/-- `generateDailyChallenge` with the two store interactions made explicit:
the initial existence check (challenge-generator.ts 14-17) reads the store
state `s0`, the transaction body reads and writes the state `s1`.  A
concurrent writer may change the store between the two, which is the race
the spec's §4.2 step 8 talks about; the sequential call is the special case
`s0 = s1`. -/
def generateDailyChallengeRace (s0 s1 : Store) (userId date : String) :
    Except String (Nat × Store) :=
  match getUserChallengeByDate s0 userId date with
  | some existingChallenge => Except.ok (existingChallenge.id, s1)
  | none => generateBody s1 userId date

/-- `generateDailyChallenge(userId, date)` (challenge-generator.ts 12-79),
sequential semantics: both phases see the same store. -/
def generateDailyChallenge (s : Store) (userId date : String) :
    Except String (Nat × Store) :=
  generateDailyChallengeRace s s userId date

/-- The character codes of the date key "2024-01-01", used as a concrete
input below. -/
def dateKeyCodes : List Nat := [50, 48, 50, 52, 45, 48, 49, 45, 48, 49]

/-! ### Witness data: a small concrete store -/

/-- Three categories; the deterministic base index for the date key "d"
resolves to position 1, category id "A". -/
def witnessCategories : List Category :=
  [{ id := "B", name := "Creativity", color := "#FF9800", icon := "creativity" },
   { id := "A", name := "Fitness", color := "#4CAF50", icon := "fitness" },
   { id := "C", name := "Learning", color := "#2196F3", icon := "learning" }]

/-- One template per category. -/
def witnessTemplates : List ChallengeTemplate :=
  [{ id := "tB", title := "draw", description := "x", category_id := "B" },
   { id := "tA", title := "run", description := "y", category_id := "A" },
   { id := "tC", title := "read", description := "z", category_id := "C" }]

/-- A store in which user "u" has three assignments, all in category "A"
(dates "a", "b", "c"). -/
def witnessStore : Store :=
  { categories := witnessCategories
    challenge_templates := witnessTemplates
    user_challenges :=
      [{ id := 0, user_id := "u", template_id := "tA", date := "a", completed := true },
       { id := 1, user_id := "u", template_id := "tA", date := "b", completed := false },
       { id := 2, user_id := "u", template_id := "tA", date := "c", completed := false }]
    nextId := 3 }

/-- The row `createUserChallenge` inserts for `generateDailyChallenge`. -/
def insertedRow (s : Store) (userId date : String) : UserChallenge :=
  { id := s.nextId, user_id := userId
    template_id := (chosenTemplate s userId date).id
    date := date, completed := false }

/-- The store after `generateDailyChallenge` has inserted its row. -/
def insertedStore (s : Store) (userId date : String) : Store :=
  { s with user_challenges := s.user_challenges ++ [insertedRow s userId date]
           nextId := s.nextId + 1 }

/-- The store the initial existence check of `generateDailyChallenge` sees:
no assignment for ("u", "d") yet. -/
def raceStore0 : Store :=
  { categories := witnessCategories
    challenge_templates := witnessTemplates
    user_challenges := []
    nextId := 0 }

/-- The store the transaction sees after a concurrent caller has already
inserted the assignment for ("u", "d"). -/
def raceStore1 : Store :=
  { categories := witnessCategories
    challenge_templates := witnessTemplates
    user_challenges := [{ id := 0, user_id := "u", template_id := "tA",
                          date := "d", completed := false }]
    nextId := 1 }

/-! ### Lemmas about the 32-bit coercion -/

lemma toInt32_emod (a : Int) : toInt32 a % 4294967296 = a % 4294967296 := by
  unfold toInt32
  dsimp only
  split <;> omega

lemma toInt32_congr {a b : Int} (h : a % 4294967296 = b % 4294967296) :
    toInt32 a = toInt32 b := by
  unfold toInt32
  rw [h]

lemma toSigned_eq_toInt32 {n : Nat} (h : n < 4294967296) :
    toSigned n = toInt32 (n : Int) := by
  unfold toSigned toInt32
  dsimp only
  have hmod : (n : Int) % 4294967296 = (n : Int) := by
    apply Int.emod_eq_of_lt (by positivity)
    exact_mod_cast h
  rw [hmod]
  split <;> split <;> omega

lemma hash_linear_step (A B : Int) (u c : Nat)
    (h1 : A % 4294967296 = B * 32 % 4294967296)
    (h2 : B % 4294967296 = (u : Int) % 4294967296) :
    (A - B + (c : Int)) % 4294967296
      = (((u * 31 + c) % 4294967296 : Nat) : Int) % 4294967296 := by
  omega

lemma hashStep_toSigned {u : Nat} (hu : u < 4294967296) (c : Nat) :
    hashStep (toSigned u) c = toSigned (specHashStep u c) := by
  have hspec : specHashStep u c < 4294967296 := by
    unfold specHashStep
    omega
  rw [toSigned_eq_toInt32 hu, toSigned_eq_toInt32 hspec]
  unfold hashStep specHashStep
  exact toInt32_congr (hash_linear_step _ _ u c (toInt32_emod _) (toInt32_emod _))

lemma foldl_hashStep_toSigned (codes : List Nat) :
    ∀ u : Nat, u < 4294967296 →
      codes.foldl hashStep (toSigned u) = toSigned (codes.foldl specHashStep u) := by
  induction codes with
  | nil => intro u _; rfl
  | cons c cs ih =>
    intro u hu
    have hstep : specHashStep u c < 4294967296 := Nat.mod_lt _ (by norm_num)
    simp only [List.foldl_cons, hashStep_toSigned hu]
    exact ih _ hstep

lemma hashOf_eq_spec (codes : List Nat) : hashOf codes = toSigned (specHash codes) := by
  have h0 : toSigned 0 = 0 := by norm_num [toSigned]
  unfold hashOf specHash
  rw [← h0, foldl_hashStep_toSigned codes 0 (by norm_num)]

lemma tmod_natCast (k m : Nat) : (k : Int).tmod (m : Int) = ((k % m : Nat) : Int) := rfl

lemma tmod_natCast_negSucc (k j : Nat) :
    (k : Int).tmod (Int.negSucc j) = ((k % (j + 1) : Nat) : Int) := rfl


/-- C1: for every key and every integer `n > 0`, `getDateBasedIndex` returns
the value `Math.abs(hash) % n`, which lies in `[0, n)`, and repeated calls
with the same key and the same `n` return the same result (the function is
pure). -/
theorem c1_select_in_range_and_deterministic (codes : List Nat) (n : Int) (h : 0 < n) :
    getDateBasedIndex codes n = some (((hashOf codes).natAbs % n.natAbs : Nat) : Int)
      ∧ (0 : Int) ≤ (((hashOf codes).natAbs % n.natAbs : Nat) : Int)
      ∧ (((hashOf codes).natAbs % n.natAbs : Nat) : Int) < n
      ∧ getDateBasedIndex codes n = getDateBasedIndex codes n := by
  obtain ⟨m, rfl⟩ := Int.eq_ofNat_of_zero_le h.le
  have hm : 0 < m := by exact_mod_cast h
  refine ⟨?_, by positivity, ?_, rfl⟩
  · unfold getDateBasedIndex jsRem
    rw [if_neg (by exact_mod_cast hm.ne' : ¬((m : Int) = 0)), tmod_natCast,
      Int.natAbs_ofNat]
  · have hb : (hashOf codes).natAbs % ((m : Int)).natAbs < m := by
      rw [Int.natAbs_ofNat]
      exact Nat.mod_lt _ hm
    exact_mod_cast hb

/-- C1 witness: the theorem instantiated at the key "2024-01-01" and
`n = 7`. -/
theorem c1_select_witness :
    (0 : Int) < 7
      ∧ (getDateBasedIndex dateKeyCodes 7
            = some (((hashOf dateKeyCodes).natAbs % (7 : Int).natAbs : Nat) : Int)
          ∧ (0 : Int) ≤ (((hashOf dateKeyCodes).natAbs % (7 : Int).natAbs : Nat) : Int)
          ∧ (((hashOf dateKeyCodes).natAbs % (7 : Int).natAbs : Nat) : Int) < 7
          ∧ getDateBasedIndex dateKeyCodes 7 = getDateBasedIndex dateKeyCodes 7) :=
  ⟨by norm_num, c1_select_in_range_and_deterministic dateKeyCodes 7 (by norm_num)⟩

/-- C9: the implemented shift-based hash loop
(`hash = ((hash << 5) - hash) + charCode; hash = hash & hash`, then
`Math.abs(hash) % max`) computes exactly the spec's reference recurrence
`hash = (hash*31 + code) mod 2^32` with signed 32-bit wraparound, followed by
`abs(hash) mod max`. -/
theorem c9_hash_loop_refines_spec_recurrence (codes : List Nat) (max : Int) :
    getDateBasedIndex codes max = selectFromSpec codes max := by
  unfold getDateBasedIndex selectFromSpec
  rw [hashOf_eq_spec]

set_option maxRecDepth 4096 in
/-- C5 counterexample: at modulus `-5` and the key "2024-01-01",
`getDateBasedIndex` does not fail: it returns the ordinary value
`Math.abs(hash) % -5 = 2`, which even lies in `[0, 5)`.  The source
(challenge-generator.ts 100-111) contains no validation of `max`, so the
claim that the function fails for every modulus `≤ 0` is false. -/
theorem c5_counterexample :
    getDateBasedIndex dateKeyCodes (-5) = some 2
      ∧ (0 : Int) ≤ 2 ∧ (2 : Int) < 5 := by
  refine ⟨?_, by norm_num, by norm_num⟩
  rfl

/-- C5 amended: `getDateBasedIndex` performs no validation of the modulus
and never throws: modulus `0` produces `NaN` (the JavaScript `x % 0`), and a
negative modulus produces the ordinary value `Math.abs(hash) % modulus`,
which lies in `[0, -modulus)`. -/
theorem c5_amended_no_modulus_validation (codes : List Nat) (m : Int) :
    (m = 0 → getDateBasedIndex codes m = none)
      ∧ (m < 0 →
          getDateBasedIndex codes m
              = some (((hashOf codes).natAbs % m.natAbs : Nat) : Int)
            ∧ (0 : Int) ≤ (((hashOf codes).natAbs % m.natAbs : Nat) : Int)
            ∧ (((hashOf codes).natAbs % m.natAbs : Nat) : Int) < -m) := by
  constructor
  · intro h0
    subst h0
    unfold getDateBasedIndex jsRem
    rw [if_pos rfl]
  · intro hneg
    obtain ⟨j, rfl⟩ : ∃ j, m = Int.negSucc j := by
      cases m with
      | ofNat k => exact absurd hneg (not_lt.mpr (Int.natCast_nonneg k))
      | negSucc j => exact ⟨j, rfl⟩
    have habs : (Int.negSucc j).natAbs = j + 1 := rfl
    refine ⟨?_, by positivity, ?_⟩
    · unfold getDateBasedIndex jsRem
      rw [if_neg (by simp), tmod_natCast_negSucc, habs]
    · rw [habs]
      have hb : (hashOf codes).natAbs % (j + 1) < j + 1 :=
        Nat.mod_lt _ (Nat.succ_pos j)
      have hneg2 : -Int.negSucc j = ((j + 1 : Nat) : Int) := rfl
      rw [hneg2]
      exact_mod_cast hb

/-- C5 amended witness: the theorem instantiated at the key "2024-01-01"
with modulus `-5` (and modulus `0` for the NaN case). -/
theorem c5_amended_witness :
    ((0 : Int) = 0 → getDateBasedIndex dateKeyCodes 0 = none)
      ∧ ((-5 : Int) < 0
          ∧ (getDateBasedIndex dateKeyCodes (-5)
                = some (((hashOf dateKeyCodes).natAbs % (-5 : Int).natAbs : Nat) : Int)
              ∧ (0 : Int) ≤ (((hashOf dateKeyCodes).natAbs % (-5 : Int).natAbs : Nat) : Int)
              ∧ (((hashOf dateKeyCodes).natAbs % (-5 : Int).natAbs : Nat) : Int) < -(-5))) :=
  ⟨(c5_amended_no_modulus_validation dateKeyCodes 0).1,
    by norm_num,
    (c5_amended_no_modulus_validation dateKeyCodes (-5)).2 (by norm_num)⟩

/-! ### Current streak (C6) -/

lemma streakWalk_eq_specRun (l : List DayEntry) :
    ∀ (expected : Int) (s : Nat),
      (∀ e ∈ l, e.date ≤ expected) →
      l.Pairwise (fun a b => b.date < a.date) →
      streakWalk expected s l = s + specRun expected l := by
  induction l with
  | nil =>
    intro expected s _ _
    simp [streakWalk, specRun]
  | cons e rest ih =>
    intro expected s hb hp
    have hble : e.date ≤ expected := hb e (List.mem_cons_self e rest)
    rw [List.pairwise_cons] at hp
    obtain ⟨hhead, htail⟩ := hp
    by_cases hdate : e.date = expected
    · by_cases hcomp : e.completed
      · rw [streakWalk, specRun, if_pos hdate, if_pos hcomp, if_pos ⟨hdate, hcomp⟩,
          ih (expected - 1) (s + 1) (fun x hx => by have := hhead x hx; omega) htail]
        omega
      · rw [streakWalk, specRun, if_pos hdate, if_neg hcomp,
          if_neg (fun h => hcomp h.2)]
        omega
    · have hlt : e.date < expected := lt_of_le_of_ne hble hdate
      rw [streakWalk, specRun, if_neg hdate, if_pos hlt,
        if_neg (fun h => hdate h.1)]
      omega

/-- C6: over a history list that is strictly descending by date (which the
`ORDER BY uc.date DESC` query together with the `UNIQUE (user_id, date)`
constraint guarantees), `calculateCurrentStreak` equals the spec's reference
definition: 0 on an empty history; a backward one-day-at-a-time walk starting
at 1 when the most recent row is completed — anchored at today when it is
today's, and at its own date otherwise — stopping at an incomplete row or at
a gap; 0 when the most recent row is not completed. -/
theorem c6_current_streak_matches_spec (today : Int) (l : List DayEntry)
    (hs : l.Pairwise (fun a b => b.date < a.date)) :
    calculateCurrentStreak today l = currentStreakFromSpec today l := by
  cases l with
  | nil => rfl
  | cons m rest =>
    rw [List.pairwise_cons] at hs
    obtain ⟨hhead, htail⟩ := hs
    by_cases hcomp : m.completed
    · by_cases hdate : m.date = today
      · rw [calculateCurrentStreak, currentStreakFromSpec,
          if_neg (fun h => h.1 hdate), if_pos ⟨hdate, hcomp⟩,
          if_pos hcomp, if_pos hdate]
        exact streakWalk_eq_specRun rest (today - 1) 1
          (fun x hx => by have := hhead x hx; omega) htail
      · rw [calculateCurrentStreak, currentStreakFromSpec,
          if_pos ⟨hdate, hcomp⟩, if_pos hcomp, if_neg hdate,
          streakWalk, if_pos rfl, if_pos hcomp]
        exact streakWalk_eq_specRun rest (m.date - 1) 1
          (fun x hx => by have := hhead x hx; omega) htail
    · rw [calculateCurrentStreak, currentStreakFromSpec,
        if_neg (fun h => hcomp h.2), if_neg (fun h => hcomp h.2), if_neg hcomp]

/-- C6 witness: the theorem instantiated on the concrete history
today = 10 completed, day 9 completed, day 8 present but incomplete —
both sides give a current streak of 2 (evaluated below by `decide` is the
sortedness hypothesis; the equality itself comes from the theorem). -/
theorem c6_current_streak_witness :
    ([⟨10, true⟩, ⟨9, true⟩, ⟨8, false⟩] : List DayEntry).Pairwise
        (fun a b => b.date < a.date)
      ∧ calculateCurrentStreak 10 [⟨10, true⟩, ⟨9, true⟩, ⟨8, false⟩]
          = currentStreakFromSpec 10 [⟨10, true⟩, ⟨9, true⟩, ⟨8, false⟩] :=
  ⟨by decide, c6_current_streak_matches_spec 10 _ (by decide)⟩

/-! ### Longest streak (C7) -/

lemma longest_fold_eq_specAux (l : List DayEntry) :
    ∀ (c b : Nat) (p : Option Int),
      (List.foldl longestStep (c, b, p) l).2.1 = specLongestAux c b p l := by
  induction l with
  | nil => intro c b p; rfl
  | cons e rest ih =>
    intro c b p
    by_cases hcomp : e.completed
    · by_cases hprev : p = none ∨ p = some (e.date - 1)
      · have hmax : (if c + 1 > b then c + 1 else b) = max b (c + 1) := by
          split <;> omega
        simp only [List.foldl_cons, longestStep, specLongestAux, if_pos hcomp,
          if_pos hprev, hmax]
        exact ih _ _ _
      · have hmax : (if 1 > b then 1 else b) = max b 1 := by
          split <;> omega
        simp only [List.foldl_cons, longestStep, specLongestAux, if_pos hcomp,
          if_neg hprev, hmax]
        exact ih _ _ _
    · simp only [List.foldl_cons, longestStep, specLongestAux, if_neg hcomp]
      exact ih _ _ _

/-- C7: `calculateLongestStreak` over the user's assignments in ascending
date order equals the spec's reference fold: a completed assignment
increments the run when the previous completed date is null or exactly one
day earlier and otherwise resets it to 1, tracking the best run seen; a
non-completed assignment resets the run to 0 and the previous date to null
(so a calendar gap with no row does not by itself reset the run, while a
completed row after a gap restarts at 1). -/
theorem c7_longest_streak_matches_spec (l : List DayEntry) :
    calculateLongestStreak l = longestStreakFromSpec l :=
  longest_fold_eq_specAux l 0 0 none

/-! ### Completion rate (C8) -/

/-- C8: `calculateCompletionRate` equals
`round(100 * completed / total)` with half-up rounding (as the closed
formula `(200c + t) / (2t)` in natural division), is 0 when the total is 0,
and on the spec's examples gives 0/0 → 0, 7/10 → 70, 2/3 → 67. -/
theorem c8_completion_rate_rounding :
    (∀ total completed : Nat,
        calculateCompletionRate total completed
          = completionRateFromSpec total completed)
      ∧ calculateCompletionRate 0 0 = 0
      ∧ calculateCompletionRate 10 7 = 70
      ∧ calculateCompletionRate 3 2 = 67 := by
  have key : ∀ t c : Nat,
      calculateCompletionRate t c = completionRateFromSpec t c := by
    intro t c
    unfold calculateCompletionRate completionRateFromSpec jsRound
    by_cases ht : t = 0
    · rw [if_pos ht, if_pos ht]
    · rw [if_neg ht, if_neg ht]
      have htq : ((t : ℚ)) ≠ 0 := by exact_mod_cast ht
      have harith : (c : ℚ) / (t : ℚ) * 100 + 1 / 2
          = ((200 * c + t : Nat) : ℚ) / ((2 * t : Nat) : ℚ) := by
        push_cast
        field_simp
        ring
      rw [harith, Int.floor_toNat, Nat.floor_div_eq_div]
  refine ⟨key, ?_, ?_, ?_⟩
  · rw [key]
    rfl
  · rw [key]
    rfl
  · rw [key]
    rfl

/-! ### The anti-repetition scan (C2, C10) -/

lemma dateIndex_lt (codes : List Nat) {n : Nat} (h : 0 < n) : dateIndex codes n < n :=
  Nat.mod_lt _ h

lemma scanFirst_eq_none {p : Nat → Bool} :
    ∀ {n : Nat}, scanFirst p n = none → ∀ j < n, p j = false := by
  intro n
  induction n with
  | zero => intro _ j hj; omega
  | succ k ih =>
    intro h j hj
    rw [scanFirst] at h
    cases hk : scanFirst p k with
    | some i2 =>
      rw [hk] at h
      cases h
    | none =>
      rw [hk] at h
      by_cases hpk : p k = true
      · rw [if_pos hpk] at h
        cases h
      · rw [if_neg hpk] at h
        rcases Nat.lt_succ_iff_lt_or_eq.mp hj with hlt | rfl
        · exact ih hk j hlt
        · cases hval : p j
          · rfl
          · exact absurd hval hpk

lemma scanFirst_eq_some {p : Nat → Bool} :
    ∀ {n i : Nat}, scanFirst p n = some i →
      i < n ∧ p i = true ∧ ∀ j < i, p j = false := by
  intro n
  induction n with
  | zero => intro i h; simp [scanFirst] at h
  | succ k ih =>
    intro i h
    rw [scanFirst] at h
    cases hk : scanFirst p k with
    | some i2 =>
      rw [hk] at h
      cases h
      obtain ⟨hlt, hp, hmin⟩ := ih hk
      exact ⟨Nat.lt_succ_of_lt hlt, hp, hmin⟩
    | none =>
      rw [hk] at h
      by_cases hpk : p k = true
      · rw [if_pos hpk] at h
        cases h
        refine ⟨Nat.lt_succ_self k, hpk, ?_⟩
        intro j hj
        exact scanFirst_eq_none hk j hj
      · rw [if_neg hpk] at h
        cases h

lemma probe_covers {len base k : Nat} (hlen : 0 < len) (hk : k < len) :
    ∃ j, j < len ∧ (base + j + 1) % len = k := by
  refine ⟨(k + len - (base + 1) % len) % len, Nat.mod_lt _ hlen, ?_⟩
  have hb1 : (base + 1) % len < len := Nat.mod_lt _ hlen
  have h1 : base + (k + len - (base + 1) % len) % len + 1
      = (base + 1) + (k + len - (base + 1) % len) % len := by omega
  rw [h1, ← Nat.mod_add_mod, Nat.add_mod_mod]
  have h2 : (base + 1) % len + (k + len - (base + 1) % len) = k + len := by omega
  rw [h2, Nat.add_mod_right, Nat.mod_eq_of_lt hk]

lemma selectedCategoryIndex_lt {cats : List Category} {rIds : List String}
    {cnt base : Nat} (hbase : base < cats.length) :
    selectedCategoryIndex cats rIds cnt base < cats.length := by
  unfold selectedCategoryIndex
  split
  · split
    · exact Nat.mod_lt _ (by omega)
    · exact hbase
  · exact hbase

lemma selectedCategoryIndex_spec (cats : List Category) (rIds : List String)
    (cnt base : Nat) (hcnt : 3 ≤ cnt)
    (hmem : (cats.getD base default).id ∈ rIds) :
    (∃ i, i < cats.length
        ∧ (cats.getD ((base + i + 1) % cats.length) default).id ∉ rIds
        ∧ (∀ j < i, (cats.getD ((base + j + 1) % cats.length) default).id ∈ rIds)
        ∧ selectedCategoryIndex cats rIds cnt base = (base + i + 1) % cats.length)
    ∨ ((∀ k < cats.length, (cats.getD k default).id ∈ rIds)
        ∧ selectedCategoryIndex cats rIds cnt base = base) := by
  have hcond : (rIds.contains (cats.getD base default).id
      && decide (3 ≤ cnt)) = true := by
    have hco : rIds.contains (cats.getD base default).id = true :=
      List.elem_iff.mpr hmem
    rw [hco, decide_eq_true hcnt]
    rfl
  unfold selectedCategoryIndex
  rw [if_pos hcond]
  cases hscan : scanFirst
      (fun i => !(rIds.contains
        ((cats.getD ((base + i + 1) % cats.length) default).id)))
      cats.length with
  | none =>
    right
    refine ⟨?_, rfl⟩
    intro k hk
    obtain ⟨j, hj, hjk⟩ := probe_covers (by omega) hk
    have hpj := scanFirst_eq_none hscan j hj
    rw [hjk] at hpj
    rw [Bool.not_eq_false'] at hpj
    exact List.elem_iff.mp hpj
  | some i =>
    obtain ⟨hi, hp, hmin⟩ := scanFirst_eq_some hscan
    left
    refine ⟨i, hi, ?_, ?_, rfl⟩
    · intro hmem2
      rw [Bool.not_eq_true'] at hp
      have hco : rIds.contains
          (cats.getD ((base + i + 1) % cats.length) default).id = true :=
        List.elem_iff.mpr hmem2
      rw [hco] at hp
      cases hp
    · intro j hj
      have hpj := hmin j hj
      rw [Bool.not_eq_false'] at hpj
      exact List.elem_iff.mp hpj

/-- C2: in `generateDailyChallenge`, when no assignment exists for
(userId, date), the recent window has at least 3 entries and the category at
the deterministic base index appears among the recent window's category ids,
the chosen category index is the first probe `(base + i + 1) % n` (scanning
`i = 0, 1, ...`) whose category is absent from the recent set; and if every
category appears in the recent set, the chosen index is the base index
itself. -/
theorem c2_anti_repetition_choice (s : Store) (userId date : String)
    (h0 : getUserChallengeByDate s userId date = none)
    (hlen : 3 ≤ (recentChallengesOf s userId).length)
    (hmem : ((getCategories s).getD (baseCategoryIndex s date) default).id
        ∈ recentCategoryIdsOf s userId) :
    (∃ i, i < (getCategories s).length
        ∧ ((getCategories s).getD
            ((baseCategoryIndex s date + i + 1) % (getCategories s).length)
            default).id ∉ recentCategoryIdsOf s userId
        ∧ (∀ j < i, ((getCategories s).getD
            ((baseCategoryIndex s date + j + 1) % (getCategories s).length)
            default).id ∈ recentCategoryIdsOf s userId)
        ∧ chosenCategoryIndex s userId date
            = (baseCategoryIndex s date + i + 1) % (getCategories s).length)
    ∨ ((∀ k < (getCategories s).length,
          ((getCategories s).getD k default).id ∈ recentCategoryIdsOf s userId)
        ∧ chosenCategoryIndex s userId date = baseCategoryIndex s date) :=
  selectedCategoryIndex_spec (getCategories s) (recentCategoryIdsOf s userId)
    (recentChallengesOf s userId).length (baseCategoryIndex s date) hlen hmem


/-- C2 witness: on `witnessStore` with date key "d", the base index resolves
to category "A", the recent window is three "A" rows, and the theorem's
disjunction applies. -/
theorem c2_anti_repetition_witness :
    (getUserChallengeByDate witnessStore "u" "d" = none
      ∧ 3 ≤ (recentChallengesOf witnessStore "u").length
      ∧ ((getCategories witnessStore).getD (baseCategoryIndex witnessStore "d")
            default).id ∈ recentCategoryIdsOf witnessStore "u")
    ∧ ((∃ i, i < (getCategories witnessStore).length
          ∧ ((getCategories witnessStore).getD
              ((baseCategoryIndex witnessStore "d" + i + 1)
                % (getCategories witnessStore).length)
              default).id ∉ recentCategoryIdsOf witnessStore "u"
          ∧ (∀ j < i, ((getCategories witnessStore).getD
              ((baseCategoryIndex witnessStore "d" + j + 1)
                % (getCategories witnessStore).length)
              default).id ∈ recentCategoryIdsOf witnessStore "u")
          ∧ chosenCategoryIndex witnessStore "u" "d"
              = (baseCategoryIndex witnessStore "d" + i + 1)
                  % (getCategories witnessStore).length)
      ∨ ((∀ k < (getCategories witnessStore).length,
            ((getCategories witnessStore).getD k default).id
              ∈ recentCategoryIdsOf witnessStore "u")
          ∧ chosenCategoryIndex witnessStore "u" "d"
              = baseCategoryIndex witnessStore "d")) :=
  ⟨⟨by decide, by decide, by decide⟩,
    c2_anti_repetition_choice witnessStore "u" "d" (by decide) (by decide) (by decide)⟩

/-- C10: under the preconditions that the category list is non-empty and the
selected category's template list is non-empty, every array access of
`generateDailyChallenge` is in bounds: the base category index, every probe
of the anti-repetition scan, the finally selected category index, and the
template index are all below the length of the respective list. -/
theorem c10_all_indices_in_bounds (s : Store) (userId date : String)
    (hcats : getCategories s ≠ [])
    (htemps : templatesOfChosen s userId date ≠ []) :
    baseCategoryIndex s date < (getCategories s).length
    ∧ (∀ i < (getCategories s).length,
        (baseCategoryIndex s date + i + 1) % (getCategories s).length
          < (getCategories s).length)
    ∧ chosenCategoryIndex s userId date < (getCategories s).length
    ∧ dateIndex (strCodes (date ++ (selectedCategoryOf s userId date).id))
        (templatesOfChosen s userId date).length
      < (templatesOfChosen s userId date).length := by
  have hlen : 0 < (getCategories s).length := List.length_pos.mpr hcats
  have htlen : 0 < (templatesOfChosen s userId date).length := List.length_pos.mpr htemps
  refine ⟨dateIndex_lt _ hlen, ?_, ?_, dateIndex_lt _ htlen⟩
  · intro i _
    exact Nat.mod_lt _ hlen
  · exact selectedCategoryIndex_lt (dateIndex_lt _ hlen)

/-- C10 witness: the bounds theorem instantiated on the concrete
`witnessStore` (3 categories, each with one template) and date key "d". -/
theorem c10_bounds_witness :
    (getCategories witnessStore ≠ [] ∧ templatesOfChosen witnessStore "u" "d" ≠ [])
    ∧ (baseCategoryIndex witnessStore "d" < (getCategories witnessStore).length
      ∧ (∀ i < (getCategories witnessStore).length,
          (baseCategoryIndex witnessStore "d" + i + 1)
              % (getCategories witnessStore).length
            < (getCategories witnessStore).length)
      ∧ chosenCategoryIndex witnessStore "u" "d" < (getCategories witnessStore).length
      ∧ dateIndex (strCodes ("d" ++ (selectedCategoryOf witnessStore "u" "d").id))
          (templatesOfChosen witnessStore "u" "d").length
        < (templatesOfChosen witnessStore "u" "d").length) :=
  ⟨⟨by decide, by decide⟩,
    c10_all_indices_in_bounds witnessStore "u" "d" (by decide) (by decide)⟩

/-! ### Insertion and idempotence (C3, C4) -/


lemma getD_mem {α : Type _} [Inhabited α] {l : List α} {n : Nat} (h : n < l.length) :
    l.getD n default ∈ l := by
  rw [List.getD_eq_getElem l default h]
  exact List.getElem_mem h

lemma selectedCategoryOf_mem {s : Store} {u d : String}
    (hcats : (getCategories s).length ≠ 0) :
    selectedCategoryOf s u d ∈ s.categories :=
  getD_mem (selectedCategoryIndex_lt (dateIndex_lt _ (Nat.pos_of_ne_zero hcats)))

lemma chosenTemplate_mem {s : Store} {u d : String}
    (htemps : (templatesOfChosen s u d).length ≠ 0) :
    chosenTemplate s u d ∈ templatesOfChosen s u d :=
  getD_mem (dateIndex_lt _ (Nat.pos_of_ne_zero htemps))

lemma templatesOfChosen_mem {s : Store} {u d : String} {t : ChallengeTemplate}
    (h : t ∈ templatesOfChosen s u d) :
    t ∈ s.challenge_templates ∧ t.category_id = (selectedCategoryOf s u d).id := by
  unfold templatesOfChosen getChallengeTemplates at h
  have h2 := List.mem_filter.mp h
  exact ⟨h2.1, by simpa using h2.2⟩

lemma generateBody_ok {s : Store} {u d : String} {i : Nat} {s1 : Store}
    (h : generateBody s u d = Except.ok (i, s1)) :
    (getCategories s).length ≠ 0
    ∧ (templatesOfChosen s u d).length ≠ 0
    ∧ s.user_challenges.any (fun a => a.user_id == u && a.date == d) = false
    ∧ i = s.nextId
    ∧ s1 = insertedStore s u d := by
  rw [generateBody] at h
  split at h
  · exact absurd h (by simp)
  · split at h
    · exact absurd h (by simp)
    · rename_i hcats htemps
      cases hc : s.user_challenges.any (fun a => a.user_id == u && a.date == d) with
      | true =>
        rw [createUserChallenge, if_pos hc] at h
        exact absurd h (by simp)
      | false =>
        rw [createUserChallenge, if_neg (by simp [hc])] at h
        simp only [Except.ok.injEq, Prod.mk.injEq] at h
        exact ⟨hcats, htemps, rfl, h.1.symm, h.2.symm⟩

lemma lookup_insertedStore {s : Store} {u d : String}
    (hcats : (getCategories s).length ≠ 0)
    (htemps : (templatesOfChosen s u d).length ≠ 0)
    (hnone : s.user_challenges.any (fun a => a.user_id == u && a.date == d) = false) :
    getUserChallengeByDate (insertedStore s u d) u d = some (insertedRow s u d) := by
  unfold getUserChallengeByDate insertedStore
  dsimp only
  rw [List.find?_append]
  have hpre : List.find?
      (fun uc => uc.user_id == u && uc.date == d &&
        s.challenge_templates.any (fun t =>
          t.id == uc.template_id &&
            s.categories.any (fun c => c.id == t.category_id)))
      s.user_challenges = none := by
    apply List.find?_eq_none.mpr
    intro x hx hpx
    rw [List.any_eq_false] at hnone
    apply hnone x hx
    rw [Bool.and_eq_true, Bool.and_eq_true] at hpx
    rw [Bool.and_eq_true]
    exact hpx.1
  rw [hpre]
  have hrow : (fun uc => uc.user_id == u && uc.date == d &&
        s.challenge_templates.any (fun t =>
          t.id == uc.template_id &&
            s.categories.any (fun c => c.id == t.category_id)))
      (insertedRow s u d) = true := by
    have hmem_t := chosenTemplate_mem htemps
    obtain ⟨hts, hcat⟩ := templatesOfChosen_mem hmem_t
    have hany : s.challenge_templates.any (fun t =>
        t.id == (insertedRow s u d).template_id &&
          s.categories.any (fun c => c.id == t.category_id)) = true := by
      apply List.any_eq_true.mpr
      refine ⟨chosenTemplate s u d, hts, ?_⟩
      rw [Bool.and_eq_true]
      constructor
      · exact beq_self_eq_true _
      · apply List.any_eq_true.mpr
        refine ⟨selectedCategoryOf s u d, selectedCategoryOf_mem hcats, ?_⟩
        rw [hcat]
        exact beq_self_eq_true _
    rw [Bool.and_eq_true, Bool.and_eq_true]
    exact ⟨⟨beq_self_eq_true u, beq_self_eq_true d⟩, hany⟩
  rw [Option.none_or]
  simp only [List.find?, hrow]

/-- C3: `generateDailyChallenge` is idempotent.  If an assignment already
exists for (userId, date), the call returns its id and leaves the store
untouched (the fast path runs no later step); a successful call followed by
a second call with the same pair returns the same id and the same store; and
a successful creating call performs exactly one insert. -/
theorem c3_get_or_create_idempotent (s : Store) (userId date : String) :
    (∀ a, getUserChallengeByDate s userId date = some a →
        generateDailyChallenge s userId date = Except.ok (a.id, s))
    ∧ (∀ i s1, generateDailyChallenge s userId date = Except.ok (i, s1) →
        generateDailyChallenge s1 userId date = Except.ok (i, s1))
    ∧ (∀ i s1, getUserChallengeByDate s userId date = none →
        generateDailyChallenge s userId date = Except.ok (i, s1) →
        s1.user_challenges.length = s.user_challenges.length + 1) := by
  refine ⟨?_, ?_, ?_⟩
  · intro a ha
    unfold generateDailyChallenge generateDailyChallengeRace
    rw [ha]
  · intro i s1 hgen
    unfold generateDailyChallenge generateDailyChallengeRace at hgen ⊢
    cases hl : getUserChallengeByDate s userId date with
    | some a =>
      rw [hl] at hgen
      simp only [Except.ok.injEq, Prod.mk.injEq] at hgen
      obtain ⟨hi, hs⟩ := hgen
      subst hi
      subst hs
      rw [hl]
    | none =>
      rw [hl] at hgen
      obtain ⟨hcats, htemps, hnone, hi, hs1⟩ := generateBody_ok hgen
      subst hi
      subst hs1
      rw [lookup_insertedStore hcats htemps hnone]
      rfl
  · intro i s1 h0 hgen
    unfold generateDailyChallenge generateDailyChallengeRace at hgen
    rw [h0] at hgen
    obtain ⟨_, _, _, _, hs1⟩ := generateBody_ok hgen
    subst hs1
    simp [insertedStore, List.length_append]

/-- C3 witness: on `witnessStore` (no assignment for ("u", "d") yet) the
first call creates the row with id 3; the second call returns the same id
and the same store; the two calls together performed exactly one insert. -/
theorem c3_idempotent_witness :
    (getUserChallengeByDate witnessStore "u" "d" = none
      ∧ generateDailyChallenge witnessStore "u" "d"
          = Except.ok (3, insertedStore witnessStore "u" "d"))
    ∧ generateDailyChallenge (insertedStore witnessStore "u" "d") "u" "d"
        = Except.ok (3, insertedStore witnessStore "u" "d")
    ∧ (insertedStore witnessStore "u" "d").user_challenges.length
        = witnessStore.user_challenges.length + 1 :=
  ⟨⟨by decide, by decide⟩,
    (c3_get_or_create_idempotent witnessStore "u" "d").2.1 3
      (insertedStore witnessStore "u" "d") (by decide),
    (c3_get_or_create_idempotent witnessStore "u" "d").2.2 3
      (insertedStore witnessStore "u" "d") (by decide) (by decide)⟩

/-! ### The insert race (C4) -/


/-- C4 counterexample: when a concurrent caller wins the race between the
existence check and the insert, the insert hits the uniqueness constraint
and `generateDailyChallenge` propagates the error to the caller — it does
not re-fetch the existing assignment (id 0) and return its id.  The source
(challenge-generator.ts 74-78, challenges.ts 124-137) contains no catch
around the insert. -/
theorem c4_counterexample :
    getUserChallengeByDate raceStore1 "u" "d"
        = some { id := 0, user_id := "u", template_id := "tA",
                 date := "d", completed := false }
      ∧ generateDailyChallengeRace raceStore0 raceStore1 "u" "d"
          = Except.error
              "UNIQUE constraint failed: user_challenges.user_id, user_challenges.date"
      ∧ generateDailyChallengeRace raceStore0 raceStore1 "u" "d"
          ≠ Except.ok (0, raceStore1) :=
  ⟨by decide, by decide, by decide⟩

/-- C4 amended: if the insert of `generateDailyChallenge` fails with the
uniqueness-constraint violation (a concurrent caller inserted the row
between the initial existence check and the transaction), the violation
propagates to the caller unchanged; the operation performs no re-fetch. -/
theorem c4_amended_unique_violation_propagates (s0 s1 : Store) (userId date : String)
    (h0 : getUserChallengeByDate s0 userId date = none)
    (hcats : (getCategories s1).length ≠ 0)
    (htemps : (templatesOfChosen s1 userId date).length ≠ 0)
    (hconf : s1.user_challenges.any
        (fun a => a.user_id == userId && a.date == date) = true) :
    generateDailyChallengeRace s0 s1 userId date
      = Except.error
          "UNIQUE constraint failed: user_challenges.user_id, user_challenges.date" := by
  unfold generateDailyChallengeRace
  rw [h0, generateBody, if_neg hcats, if_neg htemps, createUserChallenge, if_pos hconf]

/-- C4 amended witness: the amended theorem instantiated on the concrete
race between `raceStore0` (check time) and `raceStore1` (insert time). -/
theorem c4_amended_witness :
    (getUserChallengeByDate raceStore0 "u" "d" = none
      ∧ (getCategories raceStore1).length ≠ 0
      ∧ (templatesOfChosen raceStore1 "u" "d").length ≠ 0
      ∧ raceStore1.user_challenges.any
          (fun a => a.user_id == "u" && a.date == "d") = true)
    ∧ generateDailyChallengeRace raceStore0 raceStore1 "u" "d"
        = Except.error
            "UNIQUE constraint failed: user_challenges.user_id, user_challenges.date" :=
  ⟨⟨by decide, by decide, by decide, by decide⟩,
    c4_amended_unique_violation_propagates raceStore0 raceStore1 "u" "d"
      (by decide) (by decide) (by decide) (by decide)⟩

end DailyChallengeApp
